import Mathlib

/-!
Shallow embedding of the publicLegiCrawler coordination engine.

The embedding follows the Python sources:
* `legiConnector.py` — Quota Guard (`_waitIfNeeded`, `_checkQuotas`);
* `dbConnector.py` — reentrant DB connection context manager and `executeMany`;
* `converter.py` — Source Agent (`_getTextIdList`, `_getTextIdListHelper`,
  `_getText`, `_filterLegiText`, `createTextProvider`), Store Agent
  (`_checkIfKnown`, `_storeText`, `createDbManager`), parsing glue
  (`_parseText`) and the Coordinator (`Middleman`);
* `basePattern.py` — `Pattern.match` (the regex engine itself is an external
  collaborator; only its interface behaviour is modelled).

Machine-level conventions: CIDs and search filters are identified by natural
numbers (Python compares them by value/identity only); Python exceptions are
modelled with `Except PyError`; wall-clock time for the quota guard is an
explicit natural-number parameter that advances exactly by the amount slept.
-/

/-- Identifier of a text (Python: the CID string). Only equality matters. -/
abbrev Cid := Nat

/-- Identity of a `SearchFilters` enum member (Python compares them by
identity); the member's `structs` attribute is supplied separately by an
environment function `structsOf : SFilter → List Pattern`. -/
abbrev SFilter := Nat

/-- A row of parameters passed to a prepared statement
(`insertFailed`, `insertParsed` or `insertRecord`). -/
abbrev Row := List Nat

/-- Python exceptions that the modelled code can raise. -/
inductive PyError
  | keyError
  | indexError
  | typeError
  | attributeError
  deriving DecidableEq, Repr

/-! ## basePattern.py — `Pattern` and `converter._parseText` -/

/-- Result of `Pattern.match` on an actual string: the flattened list of
captured records (an arbitrary payload here, the regex grammar is an external
collaborator), or `none` when `re.match` found no match. -/
abbrev ParseResult := List Row

/-- A `basePattern.Pattern` as seen from the core: its behaviour on actual
strings (`matchFn`, the composition of `re.match`, `_matchPart` and
`Bricks.flatten`) and its `prepareForInsertion` post-processing (`prepFn`). -/
structure Pattern where
  matchFn : String → Option ParseResult
  prepFn : ParseResult → Cid → List Row

/-- `Pattern.match(self, text)`: `re.match(self.regex, text)` raises
`TypeError` when `text` is `None` (it expects a string or bytes-like object);
on a string it returns `None` or the flattened captures. -/
def Pattern.matchText (p : Pattern) (text : Option String) :
    Except PyError (Option ParseResult) :=
  match text with
  | none => .error .typeError
  | some s => .ok (p.matchFn s)

/-- The filtered Legifrance text handed to `_parseText`
(output shape of `converter._filterLegiText`). -/
structure FilteredText where
  cid : Cid
  publicationDate : Nat
  content : Option String
  deriving DecidableEq, Repr

/-- The dict returned by `converter._parseText`: either
`{cid, success: False}` or `{cid, publicationDate, data, success: True}`. -/
inductive ParseOutcome
  | failure (cid : Cid)
  | success (cid : Cid) (publicationDate : Nat) (data : List Row)
  deriving DecidableEq, Repr

def ParseOutcome.cid : ParseOutcome → Cid
  | .failure c => c
  | .success c _ _ => c

def ParseOutcome.isSuccess : ParseOutcome → Bool
  | .failure _ => false
  | .success _ _ _ => true

def ParseOutcome.pubDate : ParseOutcome → Nat
  | .failure _ => 0
  | .success _ d _ => d

def ParseOutcome.payload : ParseOutcome → List Row
  | .failure _ => []
  | .success _ _ d => d

/-- The `while tmpResult is None and index < len(patterns)-1` loop of
`_parseText`: try each pattern in order until one matches. -/
def parseTextLoop (patterns : List Pattern) (content : Option String) :
    Except PyError (Option (Pattern × ParseResult)) :=
  match patterns with
  | [] => .ok none
  | p :: rest =>
    match p.matchText content with
    | .error e => .error e
    | .ok none => parseTextLoop rest content
    | .ok (some r) => .ok (some (p, r))

/-- `converter._parseText(text, criteria)`: match the content against the
filter's patterns in order; on no match return `success: False`; on a match
return `success: True` with the publication date (ms → s) and the prepared
rows. -/
def parseText (patterns : List Pattern) (text : FilteredText) :
    Except PyError ParseOutcome :=
  match parseTextLoop patterns text.content with
  | .error e => .error e
  | .ok none => .ok (.failure text.cid)
  | .ok (some (p, r)) =>
      .ok (.success text.cid (text.publicationDate / 1000) (p.prepFn r text.cid))

/-! ## legiConnector.py — Quota Guard -/

/-- `LegiConnector._PERIOD`: seconds in the quota window. -/
def PERIOD : Nat := 60

/-- `LegiConnector._QUOTA_LIMIT`: max requests per window. -/
def QUOTA_LIMIT : Nat := 100

/-- `LegiConnector._checkQuotas`: drop entries from the front of
`self._quotas` while they are strictly below the current time
(`while i < len(self._quotas) and self._quotas[i] < now: i += 1`,
then keep the suffix `self._quotas[i:]`). -/
def checkQuotas (now : Nat) : List Nat → List Nat
  | [] => []
  | q :: rest => if q < now then checkQuotas now rest else q :: rest

/-- `LegiConnector._waitIfNeeded`: check quotas, sleep
`self._quotas[0] - int(time()) + 1` seconds when the window is full,
re-check quotas at the post-sleep time, then append `int(time()) + PERIOD`.
The logical clock `now` advances exactly by the amount slept; the returned
pair is (time when the method returns, new `self._quotas`). -/
def waitIfNeeded (now : Nat) (quotas : List Nat) : Nat × List Nat :=
  let q1 := checkQuotas now quotas
  let now' := if QUOTA_LIMIT ≤ q1.length then now + (q1.headD 0 + 1 - now) else now
  let q2 := checkQuotas now' q1
  (now', q2 ++ [now' + PERIOD])

/-! ## dbConnector.py — reentrant connection context manager -/

/-- State of a `DbConnector`: the nesting counter and the underlying psycopg2
connection (identified by the number of connections opened before it, so that
"the same connection is reused" is expressible). -/
structure DbConnState where
  nesting : Int
  conn : Option Nat
  deriving DecidableEq, Repr

/-- `DbConnector.__init__`: no connection, zero nesting. -/
def dbInit : DbConnState := { nesting := 0, conn := none }

/-- `DbConnector.__enter__`: when `self._nesting` is truthy just increment it;
otherwise set it to 1 and open a fresh connection (`newConnId` identifies the
connection `psycopg2.connect` would return). -/
def dbEnter (s : DbConnState) (newConnId : Nat) : DbConnState :=
  if s.nesting ≠ 0 then { s with nesting := s.nesting + 1 }
  else { nesting := 1, conn := some newConnId }

/-- `DbConnector.__exit__`: decrement `self._nesting`; when it becomes falsy,
call `self._connection.__exit__` and clear the connection. Calling
`__exit__` on a `None` connection raises `AttributeError`. -/
def dbExit (s : DbConnState) : Except PyError DbConnState :=
  let n := s.nesting - 1
  if n = 0 then
    match s.conn with
    | none => .error .attributeError
    | some _ => .ok { nesting := n, conn := none }
  else .ok { s with nesting := n, conn := s.conn }

/-! ## converter.py — Source Agent -/

/-- One Legifrance `/search` response page: the server-reported
`totalResultNumber` and the page's results projected to their CIDs
(`[x["titles"][0]["cid"] for x in results["results"]]`, in response order). -/
structure Page where
  totalResultNumber : Nat
  results : List Cid
  deriving DecidableEq, Repr

/-- `converter._getTextIdListHelper`: fetch page `pageNumber`, return the next
page number, the updated running count, the reported total and the page's
CID list. -/
def getTextIdListHelper (search : Nat → Page) (pageNumber resultNumber : Nat) :
    Nat × Nat × Nat × List Cid :=
  let results := search pageNumber
  (pageNumber + 1, resultNumber + results.results.length,
   results.totalResultNumber, results.results)

/-- The `while currentResultNumber < totalResultNumber` loop of
`_getTextIdList`. `fuel` bounds the number of iterations of the model; `none`
means the loop was still running when fuel ran out. -/
def getTextIdListLoop (search : Nat → Page) :
    Nat → Nat → Nat → Nat → Option (List (List Cid))
  | fuel, pageNumber, cur, total =>
    if cur < total then
      match fuel with
      | 0 => none
      | fuel' + 1 =>
        let r := getTextIdListHelper search pageNumber cur
        (getTextIdListLoop search fuel' r.1 r.2.1 r.2.2.1).map (r.2.2.2 :: ·)
    else some []

/-- `converter._getTextIdList`: fetch page 1 unconditionally and yield its CID
list, then keep fetching and yielding pages while the cumulative count is
below the latest reported total. Returns the list of yielded pages. -/
def getTextIdList (search : Nat → Page) (fuel : Nat) :
    Option (List (List Cid)) :=
  let r := getTextIdListHelper search 1 0
  (getTextIdListLoop search fuel r.1 r.2.1 r.2.2.1).map (r.2.2.2 :: ·)

/-- A full Legifrance `/consult/jorf` response as consumed by
`_filterLegiText` (`cid`, `dateParution`, `articles`), with each article's
`content` field. -/
structure Article where
  content : String
  deriving DecidableEq, Repr

structure LegiText where
  cid : Cid
  dateParution : Nat
  articles : List Article

/-- `converter._filterLegiText`: keep the CID and publication date; the
content is `text["articles"][0]["content"]` when `articles` has exactly one
element and `None` otherwise. -/
def filterLegiText (text : LegiText) : FilteredText :=
  { cid := text.cid,
    publicationDate := text.dateParution,
    content := match text.articles with
               | [a] => some a.content
               | _ => none }

/-! ## Messages between the Coordinator and the two agents -/

/-- Messages the text provider (Source Agent) sends to the Middleman. -/
inductive LegiOut
  | endList (f : SFilter)                  -- (Markers.END, filter)
  | textList (f : SFilter) (cids : List Cid) -- (Markers.TEXT_LIST, filter, cids)
  | text (t : FilteredText)                -- (Markers.TEXT, filtered text)
  deriving DecidableEq, Repr

/-- Orders the Middleman sends to the text provider. -/
inductive LegiIn
  | terminate                              -- Markers.END
  | listOrder (f : SFilter)                -- (Markers.TEXT_LIST, filter)
  | fetch (cids : List Cid)                -- (Markers.TEXT, cid list)
  deriving DecidableEq, Repr

/-- Orders the Middleman sends to the DB manager (Store Agent). -/
inductive DbIn
  | terminate                              -- Markers.END
  | checkNew (cids : List Cid)             -- (Markers.TEXT_LIST, cids)
  | store (texts : List ParseOutcome)      -- (Markers.TEXT, parsed texts)
  deriving DecidableEq, Repr

/-- Messages the DB manager sends to the Middleman. -/
inductive DbOut
  | endBatch                               -- Markers.END after _storeText
  | newCids (refCid : Cid) (cids : List Cid) -- (Markers.TEXT_LIST, ref, new)
  | ack (cid : Cid)                        -- (Markers.TEXT, stored cid)
  deriving DecidableEq, Repr

/-- Orders received from / reports sent on the control connection. -/
inductive CmdIn
  | terminate                              -- Markers.END
  | submit (f : SFilter)                   -- a SearchFilters member
  deriving DecidableEq, Repr

inductive CmdOut
  | done                                   -- Markers.END completion report
  deriving DecidableEq, Repr

/-! ## dbConnector.py / converter.py — Store Agent -/

/-- Prepared statements from `dbStructure.Statements` used by the Store
Agent. Their SQL text lives outside `src/`; only their identity matters. -/
inductive Stmt
  | selectCid
  | insertFailed
  | insertParsed
  | insertRecord
  deriving DecidableEq, Repr

/-- Observable effects on the database connection. -/
inductive DbEffect
  | selectCidQ (cid : Cid)                 -- executeAndFetch(selectCid, (cid,))
  | batchExec (stmt : Stmt) (params : List Row) -- execute_batch of a statement
  | commitEff                              -- connection.commit()
  deriving DecidableEq, Repr

/-- `DbConnector.executeMany(query, params)`: return immediately on an empty
parameter list; otherwise run the batched statement (the surrounding
PREPARE/EXECUTE/DEALLOCATE plumbing does not change the inserted rows) and
then evaluate `self._executeMany(query, params)` — an attribute `DbConnector`
never defines, so the call raises `AttributeError` before returning. -/
def executeMany (stmt : Stmt) (params : List Row) :
    List DbEffect × Except PyError Unit :=
  if params.length = 0 then ([], .ok ())
  else ([.batchExec stmt params], .error .attributeError)

/-- The partition loop of `converter._storeText`: successes keep their whole
dict, failures are reduced to their CID, both in input order. -/
def storePartition (texts : List ParseOutcome) :
    List ParseOutcome × List Cid :=
  (texts.filter (fun t => t.isSuccess),
   (texts.filter (fun t => !t.isSuccess)).map ParseOutcome.cid)

/-- `converter._storeText(dbConnector, pipeEnd, texts)`: partition into
successes and failures; `executeMany(insertFailed)` on the failures when any;
`executeMany(insertParsed)` then `executeMany(insertRecord)` on the successes
when any; `commit()`; then send one `(Markers.TEXT, cid)` per input text and
a final `Markers.END`. An exception from `executeMany` propagates, skipping
everything after it. Returns (effects, messages sent, outcome). -/
def storeText (texts : List ParseOutcome) :
    List DbEffect × List DbOut × Except PyError Unit :=
  let success := (storePartition texts).1
  let failure := (storePartition texts).2
  let r1 := if failure.isEmpty then ([], .ok ())
            else executeMany .insertFailed (failure.map (fun c => [c]))
  match r1.2 with
  | .error e => (r1.1, [], .error e)
  | .ok _ =>
    let r2 := if success.isEmpty then ([], .ok ())
              else executeMany .insertParsed
                     (success.map (fun t => [t.cid, t.pubDate]))
    match r2.2 with
    | .error e => (r1.1 ++ r2.1, [], .error e)
    | .ok _ =>
      let r3 := if success.isEmpty then ([], .ok ())
                else executeMany .insertRecord (success.map ParseOutcome.payload).flatten
      match r3.2 with
      | .error e => (r1.1 ++ r2.1 ++ r3.1, [], .error e)
      | .ok _ =>
        (r1.1 ++ r2.1 ++ r3.1 ++ [.commitEff],
         texts.map (fun t => DbOut.ack t.cid) ++ [DbOut.endBatch],
         .ok ())

/-- The index loop of `converter._checkIfKnown`: query `selectCid` for each
CID in order; a CID found in the database is overwritten with `None`.
`known` is the database's answer (`result[0][0]` truthiness). -/
def checkLoop (known : Cid → Bool) : List Cid → List DbEffect × List (Option Cid)
  | [] => ([], [])
  | c :: rest =>
    let r := checkLoop known rest
    (.selectCidQ c :: r.1, (if known c then none else some c) :: r.2)

/-- `converter._checkIfKnown(dbConnector, pipeEnd, cidList)`: take the first
CID as correlation key (`refCid = cidList[0]`, raising `IndexError` on an
empty list), run the marking loop, then send a single
`(Markers.TEXT_LIST, refCid, [x for x in cidList if x is not None])`. -/
def checkIfKnown (known : Cid → Bool) (cidList : List Cid) :
    List DbEffect × Except PyError DbOut :=
  match cidList with
  | [] => ([], .error .indexError)
  | ref :: _ =>
    let r := checkLoop known cidList
    (r.1, .ok (.newCids ref (r.2.filterMap id)))

/-- The order loop of `converter.createDbManager`: dispatch orders in arrival
order until `Markers.END`; an exception from a handler propagates and stops
the loop (the remaining orders are never read). -/
def dbManagerRun (known : Cid → Bool) :
    List DbIn → List DbEffect × List DbOut × Except PyError Unit
  | [] => ([], [], .ok ())
  | .terminate :: _ => ([], [], .ok ())
  | .checkNew cids :: rest =>
    let r := checkIfKnown known cids
    match r.2 with
    | .error e => (r.1, [], .error e)
    | .ok msg =>
      let rec' := dbManagerRun known rest
      (r.1 ++ rec'.1, msg :: rec'.2.1, rec'.2.2)
  | .store texts :: rest =>
    let r := storeText texts
    match r.2.2 with
    | .error e => (r.1, r.2.1, .error e)
    | .ok _ =>
      let rec' := dbManagerRun known rest
      (r.1 ++ rec'.1, r.2.1 ++ rec'.2.1, rec'.2.2)

/-! ## converter.py — Source Agent message loop (listing part) -/

/-- The `Markers.TEXT_LIST` branch of `createTextProvider`: send one
`(Markers.TEXT_LIST, filter, page)` per yielded page, then
`(Markers.END, filter)`. `none` when the listing loop exceeds the fuel. -/
def providerListOutputs (search : Nat → Page) (fuel : Nat) (f : SFilter) :
    Option (List LegiOut) :=
  (getTextIdList search fuel).map
    (fun pages => pages.map (LegiOut.textList f) ++ [LegiOut.endList f])

/-! ## converter.py — Middleman (Coordinator) -/

/-- Elements of `Middleman._commandsSet`: the initial `"wait"` sentinel (the
accepting flag) and the `SearchFilters` members whose listing phase is open. -/
inductive Cmd
  | wait
  | filt (f : SFilter)
  deriving DecidableEq, Repr

/-- Python `set.add`: no-op when already present (list kept duplicate-free). -/
def setAdd (s : List Cmd) (c : Cmd) : List Cmd :=
  if c ∈ s then s else s ++ [c]

/-- Python `set.remove`: raises `KeyError` when the element is absent. -/
def setRemove (s : List Cmd) (c : Cmd) : Except PyError (List Cmd) :=
  if c ∈ s then .ok (s.erase c) else .error .keyError

/-- Python `dict[k] = v` on `Middleman._commandsDict` (association list with
no duplicate keys). -/
def dictSet (d : List (Cid × SFilter)) (k : Cid) (v : SFilter) :
    List (Cid × SFilter) :=
  if (d.lookup k).isSome then
    d.map (fun p => if p.1 = k then (k, v) else p)
  else d ++ [(k, v)]

/-- Python `dict[k]` read: raises `KeyError` when the key is absent. -/
def dictGet (d : List (Cid × SFilter)) (k : Cid) : Except PyError SFilter :=
  match d.lookup k with
  | none => .error .keyError
  | some v => .ok v

/-- Python `dict.pop(k)`: raises `KeyError` when the key is absent. -/
def dictPop (d : List (Cid × SFilter)) (k : Cid) :
    Except PyError (SFilter × List (Cid × SFilter)) :=
  match d.lookup k with
  | none => .error .keyError
  | some v => .ok (v, d.filter (fun p => p.1 ≠ k))

/-- The Middleman's mutable state: `_commandsSet` (the `"wait"` sentinel plus
the filters with an open listing phase) and `_commandsDict` (the tracked
in-flight CIDs, each mapped to its originating filter). -/
structure MState where
  commandsSet : List Cmd
  commandsDict : List (Cid × SFilter)
  deriving DecidableEq, Repr

/-- `Middleman.__init__` starting state: `{"wait"}` and an empty dict. -/
def mInit : MState := { commandsSet := [Cmd.wait], commandsDict := [] }

/-- `Middleman._continue`: keep looping while `_commandsSet` or
`_commandsDict` is non-empty. -/
def middlemanContinue (s : MState) : Bool :=
  !s.commandsSet.isEmpty || !s.commandsDict.isEmpty

/-- The accepting flag: `"wait"` is still in `_commandsSet`. -/
def accepting (s : MState) : Prop := Cmd.wait ∈ s.commandsSet

instance (s : MState) : Decidable (accepting s) := by
  unfold accepting; infer_instance

/-- The jobs (filters) whose listing phase is still open. -/
def openJobs (s : MState) : List SFilter :=
  s.commandsSet.filterMap (fun c => match c with
    | .wait => none
    | .filt f => some f)

/-- One message of `Middleman._handleOrder`: `Markers.END` clears the
`"wait"` sentinel; a `SearchFilters` member is added to `_commandsSet` and
a `(Markers.TEXT_LIST, filter)` order is sent to the Legifrance agent. -/
def handleOrderOne (s : MState) (m : CmdIn) : MState × List LegiIn :=
  match m with
  | .terminate => ({ s with commandsSet := s.commandsSet.erase .wait }, [])
  | .submit f => ({ s with commandsSet := setAdd s.commandsSet (.filt f) },
                  [.listOrder f])

/-- `Middleman._handleOrder`: drain the control connection while messages are
available and `"wait"` is still in `_commandsSet`; unread messages stay in
the pipe. Returns (state, orders sent to the Legifrance agent, unread). -/
def handleOrder (s : MState) : List CmdIn → MState × List LegiIn × List CmdIn
  | [] => (s, [], [])
  | m :: rest =>
    if Cmd.wait ∈ s.commandsSet then
      let r1 := handleOrderOne s m
      let r2 := handleOrder r1.1 rest
      (r2.1, r1.2 ++ r2.2.1, r2.2.2)
    else (s, [], m :: rest)

/-- One message of `Middleman._handleLegiMsg`.
* `(Markers.END, f)`: `_commandsSet.remove(f)` (KeyError when absent).
* `(Markers.TEXT_LIST, f, cids)`: first send `(Markers.TEXT_LIST, cids)` to
  the DB agent, then run `_commandsDict[cids[0]] = f`; on an empty page the
  indexing raises `IndexError`, which the surrounding `except KeyError`
  does not catch, so it propagates after the DB message was already sent.
* `(Markers.TEXT, t)`: look up the text's criteria (KeyError when untracked),
  run `_parseText` and send the outcome to the DB agent.
Returns (messages sent to the DB agent, new state or exception). -/
def handleLegiOne (structsOf : SFilter → List Pattern) (s : MState)
    (m : LegiOut) : List DbIn × Except PyError MState :=
  match m with
  | .endList f =>
    match setRemove s.commandsSet (.filt f) with
    | .error e => ([], .error e)
    | .ok cs => ([], .ok { s with commandsSet := cs })
  | .textList f cids =>
    match cids with
    | [] => ([DbIn.checkNew cids], .error .indexError)
    | c :: _ => ([DbIn.checkNew cids],
                 .ok { s with commandsDict := dictSet s.commandsDict c f })
  | .text t =>
    match dictGet s.commandsDict t.cid with
    | .error e => ([], .error e)
    | .ok f =>
      match parseText (structsOf f) t with
      | .error e => ([], .error e)
      | .ok p => ([DbIn.store [p]], .ok s)

/-- `Middleman._handleLegiMsg`: drain all available Legifrance messages in
order; an exception stops the drain and propagates. -/
def handleLegi (structsOf : SFilter → List Pattern) (s : MState) :
    List LegiOut → List DbIn × Except PyError MState
  | [] => ([], .ok s)
  | m :: rest =>
    let r := handleLegiOne structsOf s m
    match r.2 with
    | .error e => (r.1, .error e)
    | .ok s' =>
      let r2 := handleLegi structsOf s' rest
      (r.1 ++ r2.1, r2.2)

/-- One message of `Middleman._handleDbMsg`.
* `Markers.END`: ignored.
* `(Markers.TEXT_LIST, ref, newCids)`: `_commandsDict.pop(ref)` (KeyError
  when absent); when `newCids` is non-empty, register each new CID under the
  popped criteria and send `(Markers.TEXT, newCids)` to the Legifrance agent.
* `(Markers.TEXT, cid)`: `_commandsDict.pop(cid)` (KeyError when absent). -/
def handleDbOne (s : MState) (m : DbOut) :
    List LegiIn × Except PyError MState :=
  match m with
  | .endBatch => ([], .ok s)
  | .newCids ref cids =>
    match dictPop s.commandsDict ref with
    | .error e => ([], .error e)
    | .ok fv =>
      if cids.isEmpty then ([], .ok { s with commandsDict := fv.2 })
      else ([LegiIn.fetch cids],
            .ok { s with
                  commandsDict := cids.foldl (fun d c => dictSet d c fv.1) fv.2 })
  | .ack c =>
    match dictPop s.commandsDict c with
    | .error e => ([], .error e)
    | .ok fv => ([], .ok { s with commandsDict := fv.2 })

/-- `Middleman._handleDbMsg`: drain all available DB messages in order. -/
def handleDb (s : MState) : List DbOut → List LegiIn × Except PyError MState
  | [] => ([], .ok s)
  | m :: rest =>
    let r := handleDbOne s m
    match r.2 with
    | .error e => ([], .error e)
    | .ok s' =>
      let r2 := handleDb s' rest
      (r.1 ++ r2.1, r2.2)

/-- The messages that become readable on the three connections during one
round of `connection.wait`. -/
structure Arrivals where
  cmdMsgs : List CmdIn
  legiMsgs : List LegiOut
  dbMsgs : List DbOut
  deriving DecidableEq, Repr

/-- Everything the Middleman sent on its three connections. -/
structure MOutputs where
  toLegi : List LegiIn
  toDb : List DbIn
  toCmd : List CmdOut
  deriving DecidableEq, Repr

/-- The `while self._continue()` loop of `Middleman.__init__`: each round
handles the control messages (leftover first), then the Legifrance messages,
then the DB messages; on `_continue()` returning `False` it sends
`Markers.END` to the Legifrance and DB agents and reports `Markers.END` on
the control connection. `.ok none` models the loop blocked in
`connection.wait` with no further arrivals; `.error` a propagated
exception. -/
def middlemanRun (structsOf : SFilter → List Pattern) :
    MState → List CmdIn → List Arrivals →
    Except PyError (Option (MState × MOutputs))
  | s, pend, rounds =>
    if middlemanContinue s then
      match rounds with
      | [] => .ok none
      | a :: rest =>
        let r1 := handleOrder s (pend ++ a.cmdMsgs)
        let r2 := handleLegi structsOf r1.1 a.legiMsgs
        match r2.2 with
        | .error e => .error e
        | .ok s2 =>
          let r3 := handleDb s2 a.dbMsgs
          match r3.2 with
          | .error e => .error e
          | .ok s3 =>
            match middlemanRun structsOf s3 r1.2.2 rest with
            | .error e => .error e
            | .ok none => .ok none
            | .ok (some (sf, outs)) =>
              .ok (some (sf,
                { toLegi := r1.2.1 ++ r3.1 ++ outs.toLegi,
                  toDb := r2.1 ++ outs.toDb,
                  toCmd := outs.toCmd }))
    else
      .ok (some (s, { toLegi := [.terminate], toDb := [.terminate],
                      toCmd := [.done] }))

/-! ## Lemmas about the Quota Guard -/

theorem checkQuotas_sublist (now : Nat) (l : List Nat) :
    List.Sublist (checkQuotas now l) l := by
  induction l with
  | nil => simp [checkQuotas]
  | cons q rest ih =>
    simp only [checkQuotas]
    by_cases h : q < now
    · rw [if_pos h]
      exact ih.trans (List.sublist_cons_self q rest)
    · rw [if_neg h]

theorem checkQuotas_eq_self (now : Nat) (l : List Nat)
    (h : ∀ q ∈ l, now ≤ q) : checkQuotas now l = l := by
  cases l with
  | nil => rfl
  | cons q rest =>
    simp only [checkQuotas]
    rw [if_neg (Nat.not_lt.mpr (h q (List.mem_cons_self q rest)))]

theorem checkQuotas_eq_filter (now : Nat) (l : List Nat)
    (h : List.Pairwise (· ≤ ·) l) :
    checkQuotas now l = l.filter (fun q => now ≤ q) := by
  induction l with
  | nil => rfl
  | cons q rest ih =>
    rcases List.pairwise_cons.mp h with ⟨hq, hrest⟩
    simp only [checkQuotas, List.filter_cons]
    by_cases hlt : q < now
    · rw [if_pos hlt, ih hrest]
      have : (decide (now ≤ q)) = false := by
        simp [Nat.not_le.mpr hlt]
      rw [this]
      simp
    · have hle : now ≤ q := Nat.not_lt.mp hlt
      rw [if_neg hlt]
      have : (decide (now ≤ q)) = true := by simp [hle]
      rw [this]
      simp only [if_true]
      have : List.filter (fun x => decide (now ≤ x)) rest = rest := by
        apply List.filter_eq_self.mpr
        intro a ha
        simp [Nat.le_trans hle (hq a ha)]
      rw [this]

/-- C4. The Quota Guard's acquire operation (`_waitIfNeeded`): starting from a
monotone window of at most `QUOTA_LIMIT` expiries, all of them at most one
period away, the call (1) drops exactly the expired entries from the front,
(2) when the window is full returns only at the oldest expiry plus a one-unit
margin (and otherwise immediately), (3) appends the new expiry
`now + PERIOD` as the last entry, and (4) leaves a window of at most
`QUOTA_LIMIT` entries, all unexpired, still monotone and within one period. -/
theorem quota_guard_acquire (now : Nat) (quotas : List Nat)
    (hsorted : List.Pairwise (· ≤ ·) quotas)
    (hlen : quotas.length ≤ QUOTA_LIMIT)
    (hbound : ∀ q ∈ quotas, q ≤ now + PERIOD) :
    checkQuotas now quotas = quotas.filter (fun q => now ≤ q)
    ∧ (waitIfNeeded now quotas).1 =
        (if QUOTA_LIMIT ≤ (checkQuotas now quotas).length
         then (checkQuotas now quotas).headD 0 + 1 else now)
    ∧ (waitIfNeeded now quotas).2 =
        checkQuotas (waitIfNeeded now quotas).1 (checkQuotas now quotas)
          ++ [(waitIfNeeded now quotas).1 + PERIOD]
    ∧ (waitIfNeeded now quotas).2.getLast? =
        some ((waitIfNeeded now quotas).1 + PERIOD)
    ∧ (waitIfNeeded now quotas).2.length ≤ QUOTA_LIMIT
    ∧ (∀ q ∈ (waitIfNeeded now quotas).2, (waitIfNeeded now quotas).1 ≤ q)
    ∧ List.Pairwise (· ≤ ·) (waitIfNeeded now quotas).2
    ∧ (∀ q ∈ (waitIfNeeded now quotas).2, q ≤ (waitIfNeeded now quotas).1 + PERIOD)
    ∧ now ≤ (waitIfNeeded now quotas).1 := by
  have hq1 : checkQuotas now quotas = quotas.filter (fun q => now ≤ q) :=
    checkQuotas_eq_filter now quotas hsorted
  set q1 := checkQuotas now quotas with hq1def
  have hq1sorted : List.Pairwise (· ≤ ·) q1 :=
    hsorted.sublist (checkQuotas_sublist now quotas)
  have hq1mem : ∀ q ∈ q1, now ≤ q := by
    intro q hmem
    rw [hq1] at hmem
    have := (List.mem_filter.mp hmem).2
    simpa using this
  have hq1quotas : ∀ q ∈ q1, q ∈ quotas := by
    intro q hmem
    exact (checkQuotas_sublist now quotas).subset hmem
  have hq1len : q1.length ≤ quotas.length :=
    (checkQuotas_sublist now quotas).length_le
  -- the two possible return times
  have hfst : (waitIfNeeded now quotas).1 =
      (if QUOTA_LIMIT ≤ q1.length then now + (q1.headD 0 + 1 - now) else now) := rfl
  have hsnd : (waitIfNeeded now quotas).2 =
      checkQuotas (waitIfNeeded now quotas).1 q1
        ++ [(waitIfNeeded now quotas).1 + PERIOD] := rfl
  by_cases hfull : QUOTA_LIMIT ≤ q1.length
  · -- the window is full: q1 has exactly QUOTA_LIMIT entries, sleep to head+1
    have hq1lenquota : q1.length = QUOTA_LIMIT :=
      Nat.le_antisymm (hq1len.trans hlen) hfull
    have hq1ne : q1 ≠ [] := by
      intro hnil
      rw [hnil] at hq1lenquota
      simp [QUOTA_LIMIT] at hq1lenquota
    obtain ⟨h0, t, hq1cons⟩ := List.exists_cons_of_ne_nil hq1ne
    have hh0 : now ≤ h0 := hq1mem h0 (by rw [hq1cons]; exact List.mem_cons_self h0 t)
    have hnow' : (waitIfNeeded now quotas).1 = h0 + 1 := by
      rw [hfst, if_pos hfull, hq1cons]
      simp only [List.headD_cons]
      omega
    have htsorted : List.Pairwise (· ≤ ·) t := by
      rw [hq1cons] at hq1sorted
      exact (List.pairwise_cons.mp hq1sorted).2
    have hq2 : checkQuotas (waitIfNeeded now quotas).1 q1 =
        t.filter (fun q => h0 + 1 ≤ q) := by
      rw [hnow', hq1cons]
      simp only [checkQuotas]
      rw [if_pos (Nat.lt_succ_self h0)]
      exact checkQuotas_eq_filter (h0 + 1) t htsorted
    have hq2sub : List.Sublist (checkQuotas (waitIfNeeded now quotas).1 q1) t := by
      rw [hq2]; exact List.filter_sublist t
    have hq2len : (checkQuotas (waitIfNeeded now quotas).1 q1).length ≤ t.length :=
      hq2sub.length_le
    have htlen : t.length + 1 = QUOTA_LIMIT := by
      rw [← hq1lenquota, hq1cons]; simp
    have hq2mem : ∀ q ∈ checkQuotas (waitIfNeeded now quotas).1 q1,
        (waitIfNeeded now quotas).1 ≤ q := by
      intro q hmem
      rw [hq2] at hmem
      have := (List.mem_filter.mp hmem).2
      rw [hnow']
      simpa using this
    have hq2quotas : ∀ q ∈ checkQuotas (waitIfNeeded now quotas).1 q1,
        q ∈ quotas := by
      intro q hmem
      apply hq1quotas
      rw [hq1cons]
      exact List.mem_cons_of_mem h0 (hq2sub.subset hmem)
    have hnownow' : now ≤ (waitIfNeeded now quotas).1 := by
      rw [hnow']; omega
    refine ⟨hq1, by rw [if_pos hfull, hnow', hq1cons]; rfl, hsnd, ?_, ?_, ?_, ?_, ?_,
      hnownow'⟩
    · rw [hsnd]
      rw [List.getLast?_append_of_ne_nil _ (by simp)]
      rfl
    · rw [hsnd, List.length_append]
      simp only [List.length_singleton]
      omega
    · intro q hmem
      rw [hsnd] at hmem
      rcases List.mem_append.mp hmem with h | h
      · exact hq2mem q h
      · simp only [List.mem_singleton] at h
        omega
    · rw [hsnd]
      rw [List.pairwise_append]
      refine ⟨hq1sorted.sublist (hq2sub.trans (by rw [hq1cons]; exact List.sublist_cons_self h0 t)),
        List.pairwise_singleton _ _, ?_⟩
      intro a ha b hb
      simp only [List.mem_singleton] at hb
      subst hb
      have : a ≤ now + PERIOD := hbound a (hq2quotas a ha)
      omega
    · intro q hmem
      rw [hsnd] at hmem
      rcases List.mem_append.mp hmem with h | h
      · have : q ≤ now + PERIOD := hbound q (hq2quotas q h)
        omega
      · simp only [List.mem_singleton] at h
        omega
  · -- the window is not full: no sleep, nothing more expires
    have hnow' : (waitIfNeeded now quotas).1 = now := by
      rw [hfst, if_neg hfull]
    have hq2 : checkQuotas (waitIfNeeded now quotas).1 q1 = q1 := by
      rw [hnow']
      exact checkQuotas_eq_self now q1 hq1mem
    refine ⟨hq1, by rw [if_neg hfull]; exact hnow', hsnd, ?_, ?_, ?_, ?_, ?_,
      by rw [hnow']⟩
    · rw [hsnd]
      rw [List.getLast?_append_of_ne_nil _ (by simp)]
      rfl
    · rw [hsnd, hq2, List.length_append]
      simp only [List.length_singleton]
      have : q1.length < QUOTA_LIMIT := Nat.not_le.mp hfull
      omega
    · intro q hmem
      rw [hsnd, hq2] at hmem
      rcases List.mem_append.mp hmem with h | h
      · rw [hnow']; exact hq1mem q h
      · simp only [List.mem_singleton] at h
        omega
    · rw [hsnd, hq2, List.pairwise_append]
      refine ⟨hq1sorted, List.pairwise_singleton _ _, ?_⟩
      intro a ha b hb
      simp only [List.mem_singleton] at hb
      subst hb
      have : a ≤ now + PERIOD := hbound a (hq1quotas a ha)
      rw [hnow']
      omega
    · intro q hmem
      rw [hsnd, hq2] at hmem
      rcases List.mem_append.mp hmem with h | h
      · have : q ≤ now + PERIOD := hbound q (hq1quotas q h)
        rw [hnow']
        omega
      · simp only [List.mem_singleton] at h
        omega

/-- Witness for `quota_guard_acquire` at a concrete window. -/
theorem quota_guard_acquire_witness :
    waitIfNeeded 100 [99, 150] = (100, [150, 160]) ∧
    (waitIfNeeded 100 [99, 150]).2.length ≤ QUOTA_LIMIT :=
  ⟨rfl, (quota_guard_acquire 100 [99, 150] (by decide) (by decide)
    (by decide)).2.2.2.2.1⟩

/-! ## C10 — DbConnector context manager -/

/-- The reentrancy invariant: the connection is open iff the nesting counter
is positive. -/
def dbConnInvariant (s : DbConnState) : Prop := s.conn.isSome ↔ 0 < s.nesting

/-- C10. The `DbConnector` context manager is reentrant: the invariant
"connection open iff nesting positive" holds initially and is preserved by
`__enter__` and by any balanced `__exit__`; entering at positive depth reuses
the same connection and only bumps the counter; entering at depth zero opens
the fresh connection; exiting closes and clears the connection exactly when
the outermost with-block exits (depth 1), and otherwise keeps it open. -/
theorem db_context_reentrant :
    dbConnInvariant dbInit
    ∧ (∀ s i, dbConnInvariant s → dbConnInvariant (dbEnter s i))
    ∧ (∀ s i, dbConnInvariant s → 0 < s.nesting →
        (dbEnter s i).conn = s.conn ∧ (dbEnter s i).nesting = s.nesting + 1)
    ∧ (∀ s i, s.nesting = 0 → dbEnter s i = { nesting := 1, conn := some i })
    ∧ (∀ s, dbConnInvariant s → 0 < s.nesting →
        ∃ s', dbExit s = .ok s' ∧ dbConnInvariant s'
          ∧ s'.nesting = s.nesting - 1
          ∧ (s'.conn = none ↔ s.nesting = 1)
          ∧ (1 < s.nesting → s'.conn = s.conn)) := by
  refine ⟨?_, ?_, ?_, ?_, ?_⟩
  · simp [dbInit, dbConnInvariant]
  · intro s i hinv
    unfold dbEnter
    by_cases hz : s.nesting ≠ 0
    · rw [if_pos hz]
      unfold dbConnInvariant at hinv ⊢
      simp only []
      constructor
      · intro hsome
        have := hinv.mp hsome
        omega
      · intro hlt
        apply hinv.mpr
        rcases Int.lt_or_lt_of_ne hz with hneg | hpos
        · omega
        · exact hpos
    · rw [if_neg hz]
      simp [dbConnInvariant]
  · intro s i hinv hpos
    unfold dbEnter
    rw [if_pos (by omega : s.nesting ≠ 0)]
    exact ⟨rfl, rfl⟩
  · intro s i hz
    unfold dbEnter
    rw [if_neg (by omega : ¬ s.nesting ≠ 0)]
  · intro s hinv hpos
    unfold dbExit
    unfold dbConnInvariant at hinv
    have hsome : s.conn.isSome := hinv.mpr hpos
    by_cases hone : s.nesting = 1
    · rw [if_pos (by omega : s.nesting - 1 = 0)]
      obtain ⟨c, hc⟩ := Option.isSome_iff_exists.mp hsome
      rw [hc]
      refine ⟨_, rfl, ?_, rfl, by simp [hone],
        fun h => absurd h (by omega)⟩
      unfold dbConnInvariant
      simp only [Option.isSome_none]
      constructor
      · intro hfalse
        exact absurd hfalse (by simp)
      · intro h
        omega
    · rw [if_neg (by omega : ¬ s.nesting - 1 = 0)]
      refine ⟨_, rfl, ?_, rfl, ?_, fun _ => rfl⟩
      · unfold dbConnInvariant
        simp only []
        constructor
        · intro _
          omega
        · intro _
          exact hsome
      · simp only []
        constructor
        · intro hc
          rw [hc] at hsome
          simp at hsome
        · intro h1
          omega

/-- Witness for `db_context_reentrant` on a connector nested one level deep. -/
theorem db_context_reentrant_witness :
    dbEnter { nesting := 1, conn := some 0 } 5 =
      { nesting := 2, conn := some 0 } ∧
    (dbEnter { nesting := 1, conn := some 0 } 5).conn =
      (DbConnState.mk 1 (some 0)).conn :=
  ⟨rfl, (db_context_reentrant.2.2.1 { nesting := 1, conn := some 0 } 5
    (by unfold dbConnInvariant; decide) (by decide)).1⟩

/-! ## C9 — fetch path fails soft on incomplete content arrays -/

/-- C9. For every `/consult/jorf` response whose `articles` collection does
not have exactly one element, `_filterLegiText` does not raise: it returns
the item's CID and publication timestamp with `content = None`. -/
theorem fetch_fails_soft (text : LegiText) (h : text.articles.length ≠ 1) :
    filterLegiText text =
      { cid := text.cid, publicationDate := text.dateParution,
        content := none } := by
  rcases text with ⟨c, d, arts⟩
  rcases arts with _ | ⟨a, _ | ⟨b, rest⟩⟩
  · rfl
  · simp at h
  · rfl

/-- Witness for `fetch_fails_soft` on a two-article response. -/
theorem fetch_fails_soft_witness :
    filterLegiText { cid := 4, dateParution := 99,
                     articles := [{ content := "a" }, { content := "b" }] } =
      { cid := 4, publicationDate := 99, content := none } :=
  fetch_fails_soft
    { cid := 4, dateParution := 99,
      articles := [{ content := "a" }, { content := "b" }] } (by decide)

/-! ## C7 — CheckNew result shape -/

theorem checkLoop_spec (known : Cid → Bool) (l : List Cid) :
    checkLoop known l = (l.map DbEffect.selectCidQ,
      l.map (fun c => if known c then none else some c)) := by
  induction l with
  | nil => rfl
  | cons c rest ih => simp [checkLoop, ih]

theorem filterMap_mark (known : Cid → Bool) (l : List Cid) :
    (l.map (fun c => if known c then none else some c)).filterMap id
      = l.filter (fun c => !known c) := by
  induction l with
  | nil => rfl
  | cons c rest ih =>
    simp only [List.map_cons, List.filterMap_cons, List.filter_cons]
    by_cases h : known c
    · simp [h, ih]
    · simp [h, ih]

/-- C7. For every non-empty batch, `_checkIfKnown` queries existence for each
id in input order and sends exactly one message pairing the first id of the
batch with the sub-list of ids not present in the store, in input order;
the sub-list may be empty (all duplicates) and the message is still sent. -/
theorem checknew_result (known : Cid → Bool) (c : Cid) (rest : List Cid) :
    checkIfKnown known (c :: rest) =
      ((c :: rest).map DbEffect.selectCidQ,
       .ok (DbOut.newCids c ((c :: rest).filter (fun x => !known x)))) := by
  show ((checkLoop known (c :: rest)).1,
        Except.ok (DbOut.newCids c
          ((checkLoop known (c :: rest)).2.filterMap id))) =
      ((c :: rest).map DbEffect.selectCidQ,
       .ok (DbOut.newCids c ((c :: rest).filter (fun x => !known x))))
  rw [checkLoop_spec known (c :: rest)]
  rw [show ((c :: rest).map DbEffect.selectCidQ,
        (c :: rest).map (fun x => if known x then none else some x)).2
      = (c :: rest).map (fun x => if known x then none else some x) from rfl,
      show ((c :: rest).map DbEffect.selectCidQ,
        (c :: rest).map (fun x => if known x then none else some x)).1
      = (c :: rest).map DbEffect.selectCidQ from rfl]
  rw [filterMap_mark known (c :: rest)]

/-! ## C5 — Persist crashes on every non-empty batch -/

/-- C5. A Persist call with at least one outcome never reaches the commit,
the per-item acknowledgments or the End-of-batch message: the first
non-empty `executeMany` evaluates the undefined attribute
`DbConnector._executeMany` and raises `AttributeError` (after its
`execute_batch` already ran). Shown on a one-failure batch and on a
one-success batch; only the empty batch completes. -/
theorem persist_crashes_on_nonempty_batch :
    storeText [ParseOutcome.failure 1] =
      ([DbEffect.batchExec Stmt.insertFailed [[1]]], [],
       .error .attributeError)
    ∧ storeText [ParseOutcome.success 2 5 [[2, 7]]] =
      ([DbEffect.batchExec Stmt.insertParsed [[2, 5]]], [],
       .error .attributeError)
    ∧ storeText [] = ([DbEffect.commitEff], [DbOut.endBatch], .ok ()) :=
  ⟨rfl, rfl, rfl⟩

/-! ## C3 — fetched item with no content crashes the extraction call -/

/-- A stand-in for a `SearchFilters` member's `structs` attribute with a
single pattern (`legiStructure.py` is outside `src/`; any non-empty pattern
list exhibits the same behaviour because `Pattern.match` is reached with a
`None` argument before any pattern-specific code runs). -/
def samplePatterns : List Pattern :=
  [{ matchFn := fun _ => none, prepFn := fun _ _ => [] }]

/-- C3. A fetched item whose content is `None` (malformed upstream payload)
is passed to the Extraction pattern-matching anyway: `_parseText` calls
`Pattern.match(None)`, i.e. `re.match(regex, None)`, which raises
`TypeError` for any filter with at least one pattern; the Coordinator's
`_handleLegiMsg` lets the exception propagate, so the item is never turned
into a failure record and nothing is sent to the Store Agent. -/
theorem fetch_none_content_crashes_extraction :
    (∀ p ps cid date,
      parseText (p :: ps) { cid := cid, publicationDate := date,
                            content := none } = .error .typeError)
    ∧ handleLegiOne (fun _ => samplePatterns)
        { commandsSet := [Cmd.wait], commandsDict := [(7, 0)] }
        (.text { cid := 7, publicationDate := 1000, content := none }) =
      ([], .error .typeError) :=
  ⟨fun _ _ _ _ => rfl, rfl⟩

/-! ## C2 — empty listing pages -/

/-- Counterexample to C2: on an empty listing page the Coordinator DOES send
a zero-size CheckNew batch to the Store Agent (and then crashes). -/
theorem empty_page_checknew_counterexample :
    handleLegiOne (fun _ => []) mInit (.textList 0 []) =
      ([DbIn.checkNew []], .error .indexError) := rfl

/-- A remote listing with zero results on its first (and only) page. -/
def searchZero : Nat → Page := fun _ => { totalResultNumber := 0, results := [] }

/-- C2 (amended). On an empty listing page the Coordinator first forwards a
zero-size CheckNew batch to the Store Agent and then raises an uncaught
`IndexError` (`message[2][0]` on an empty list; the surrounding
`except KeyError` does not catch it). The Source Agent itself does tolerate a
zero-result listing without crashing: it emits the single empty page followed
by End-of-list. -/
theorem empty_page_behavior :
    (∀ structsOf s f, handleLegiOne structsOf s (.textList f []) =
        ([DbIn.checkNew []], .error .indexError))
    ∧ (∀ search fuel f,
        search 1 = { totalResultNumber := 0, results := [] } →
        providerListOutputs search fuel f =
          some [LegiOut.textList f [], LegiOut.endList f]) := by
  constructor
  · intro structsOf s f
    rfl
  · intro search fuel f h
    cases fuel <;>
      simp [providerListOutputs, getTextIdList, getTextIdListHelper,
            getTextIdListLoop, h]

/-- Witness for `empty_page_behavior` on the zero-result listing. -/
theorem empty_page_behavior_witness :
    searchZero 1 = { totalResultNumber := 0, results := [] } ∧
    providerListOutputs searchZero 3 5 =
      some [LegiOut.textList 5 [], LegiOut.endList 5] :=
  ⟨rfl, empty_page_behavior.2 searchZero 3 5 rfl⟩

/-! ## C6 — a persistence error aborts the whole Persist call -/

theorem executeMany_nonempty (stmt : Stmt) (params : List Row)
    (h : params ≠ []) :
    executeMany stmt params =
      ([.batchExec stmt params], .error .attributeError) := by
  unfold executeMany
  rw [if_neg (fun hc => h (List.length_eq_zero.mp hc))]

/-- C6. When a persistence error occurs during a Persist call, the call's
transaction is never committed (no partial commit: `commit()` is unreachable
and the connection's context manager rolls the uncommitted work back), no
per-item acknowledgment is emitted — so the Coordinator can never retire the
batch's tracking entries as if it had succeeded — and the error propagates
out of the Store Agent's order loop instead of being swallowed: the loop
stops with that error and processes nothing further. -/
theorem persist_error_aborts_batch :
    (∀ texts effs msgs e, storeText texts = (effs, msgs, .error e) →
      DbEffect.commitEff ∉ effs ∧ msgs = [])
    ∧ (∀ known texts rest effs msgs e,
        storeText texts = (effs, msgs, .error e) →
        dbManagerRun known (.store texts :: rest) = (effs, msgs, .error e)) := by
  constructor
  · intro texts effs msgs e h
    simp only [storeText] at h
    by_cases hf : ((storePartition texts).2).isEmpty
    · rw [if_pos hf] at h
      simp only [] at h
      by_cases hs : ((storePartition texts).1).isEmpty
      · rw [if_pos hs, if_pos hs] at h
        simp only [] at h
        exact absurd h (by simp)
      · have hmap : ((storePartition texts).1.map
            (fun t => [t.cid, t.pubDate])) ≠ [] := by
          intro hc
          rw [List.map_eq_nil_iff] at hc
          rw [hc] at hs
          exact hs rfl
        rw [if_neg hs, executeMany_nonempty _ _ hmap] at h
        simp only [] at h
        rw [Prod.mk.injEq, Prod.mk.injEq] at h
        obtain ⟨he, hm, _⟩ := h
        subst he
        subst hm
        constructor
        · simp
        · rfl
    · have hmap : ((storePartition texts).2.map (fun c => [c])) ≠ [] := by
        intro hc
        rw [List.map_eq_nil_iff] at hc
        rw [hc] at hf
        exact hf rfl
      rw [if_neg hf, executeMany_nonempty _ _ hmap] at h
      simp only [] at h
      rw [Prod.mk.injEq, Prod.mk.injEq] at h
      obtain ⟨he, hm, _⟩ := h
      subst he
      subst hm
      constructor
      · simp
      · rfl
  · intro known texts rest effs msgs e h
    simp only [dbManagerRun, h]

/-- Witness for `persist_error_aborts_batch` on a one-failure batch. -/
theorem persist_error_aborts_batch_witness :
    storeText [ParseOutcome.failure 8] =
      ([DbEffect.batchExec Stmt.insertFailed [[8]]], [],
       .error .attributeError)
    ∧ (DbEffect.commitEff ∉ [DbEffect.batchExec Stmt.insertFailed [[8]]]
       ∧ ([] : List DbOut) = []) :=
  ⟨rfl, persist_error_aborts_batch.1 [ParseOutcome.failure 8]
    [DbEffect.batchExec Stmt.insertFailed [[8]]] [] .attributeError rfl⟩

/-! ## C8 — listing pagination -/

/-- Cumulative number of results returned by pages `1..k`. -/
def cumResults (search : Nat → Page) (k : Nat) : Nat :=
  ((List.range' 1 k).map (fun i => (search i).results.length)).sum

theorem cumResults_succ (search : Nat → Page) (m : Nat) :
    cumResults search (m + 1) =
      cumResults search m + (search (m + 1)).results.length := by
  unfold cumResults
  have h : List.range' 1 (m + 1) 1 = List.range' 1 m 1 ++ [1 + 1 * m] :=
    List.range'_concat 1 m
  rw [h]
  simp [Nat.add_comm 1 m]

/-- Characterisation of one run of the `_getTextIdList` while-loop starting
at page `pn` with running count `cur` against reported total `total`: each
emitted page is exactly the remote reply for the next consecutive page
number, a page is requested exactly while the running count is below the
most recently reported total, and the loop stops as soon as it is not. -/
def goodRun (search : Nat → Page) : Nat → Nat → Nat → List (List Cid) → Prop
  | _, cur, total, [] => ¬ cur < total
  | pn, cur, total, tl :: rest =>
      cur < total ∧ tl = (search pn).results ∧
      goodRun search (pn + 1) (cur + tl.length)
        (search pn).totalResultNumber rest

theorem getTextIdListLoop_goodRun (search : Nat → Page) :
    ∀ fuel pn cur total ps,
      getTextIdListLoop search fuel pn cur total = some ps →
      goodRun search pn cur total ps := by
  intro fuel
  induction fuel with
  | zero =>
    intro pn cur total ps h
    unfold getTextIdListLoop at h
    by_cases hc : cur < total
    · rw [if_pos hc] at h
      simp at h
    · rw [if_neg hc] at h
      simp only [Option.some.injEq] at h
      subst h
      exact hc
  | succ n ih =>
    intro pn cur total ps h
    unfold getTextIdListLoop at h
    by_cases hc : cur < total
    · rw [if_pos hc] at h
      simp only [getTextIdListHelper] at h
      rw [Option.map_eq_some'] at h
      obtain ⟨ps', hps', hcons⟩ := h
      subst hcons
      exact ⟨hc, rfl, ih _ _ _ _ hps'⟩
    · rw [if_neg hc] at h
      simp only [Option.some.injEq] at h
      subst h
      exact hc

theorem goodRun_pages (search : Nat → Page) :
    ∀ ps pn cur total, goodRun search pn cur total ps →
      ps = (List.range' pn ps.length).map (fun i => (search i).results) := by
  intro ps
  induction ps with
  | nil =>
    intro pn cur total h
    rfl
  | cons tl rest ih =>
    intro pn cur total h
    obtain ⟨hc, htl, hg⟩ := h
    have hrest := ih (pn + 1) _ _ hg
    simp only [List.length_cons, List.range'_succ, List.map_cons]
    rw [← hrest, ← htl]

theorem goodRun_stop (search : Nat → Page) :
    ∀ rest m cur total, goodRun search (m + 1) cur total rest →
      cur = cumResults search m →
      total = (search m).totalResultNumber →
      (∀ k, m ≤ k → k < m + rest.length →
        cumResults search k < (search k).totalResultNumber)
      ∧ (search (m + rest.length)).totalResultNumber ≤
          cumResults search (m + rest.length) := by
  intro rest
  induction rest with
  | nil =>
    intro m cur total h hcur htotal
    constructor
    · intro k hk1 hk2
      simp only [List.length_nil] at hk2
      omega
    · subst hcur
      subst htotal
      simpa using Nat.not_lt.mp h
  | cons tl rest ih =>
    intro m cur total h hcur htotal
    obtain ⟨hc, htl, hg⟩ := h
    have hg' : goodRun search ((m + 1) + 1) (cumResults search (m + 1))
        ((search (m + 1)).totalResultNumber) rest := by
      rw [cumResults_succ search m, ← hcur, ← htl]
      exact hg
    obtain ⟨hall, hfin⟩ := ih (m + 1) _ _ hg' rfl rfl
    constructor
    · intro k hk1 hk2
      by_cases hkm : k = m
      · subst hkm
        rw [← hcur, ← htotal]
        exact hc
      · exact hall k (by omega) (by simp at hk2; omega)
    · have hlen : m + (tl :: rest).length = (m + 1) + rest.length := by
        simp
        omega
      rw [hlen]
      exact hfin

/-- C8. If the listing loop completes, the Source Agent has requested
consecutive pages starting at page 1, each emitted page is exactly the
sequence of CIDs returned by the remote call for that page (never
reordered), a further page was requested exactly while the cumulative count
was below the server-reported total, the loop stopped as soon as the
cumulative count reached the total, and the provider emits one message per
page in order followed by the End-of-list message for the job. -/
theorem listing_pages (search : Nat → Page) (fuel : Nat) (f : SFilter)
    (pages : List (List Cid))
    (h : getTextIdList search fuel = some pages) :
    1 ≤ pages.length
    ∧ pages = (List.range' 1 pages.length).map (fun i => (search i).results)
    ∧ (∀ k, 1 ≤ k → k < pages.length →
        cumResults search k < (search k).totalResultNumber)
    ∧ (search pages.length).totalResultNumber ≤ cumResults search pages.length
    ∧ providerListOutputs search fuel f =
        some (pages.map (LegiOut.textList f) ++ [LegiOut.endList f]) := by
  have hprov : providerListOutputs search fuel f =
      some (pages.map (LegiOut.textList f) ++ [LegiOut.endList f]) := by
    unfold providerListOutputs
    rw [h]
    rfl
  unfold getTextIdList at h
  simp only [getTextIdListHelper] at h
  rw [Option.map_eq_some'] at h
  obtain ⟨rest, hrest, hcons⟩ := h
  subst hcons
  have hg : goodRun search 2 (0 + (search 1).results.length)
      (search 1).totalResultNumber rest :=
    getTextIdListLoop_goodRun search fuel 2 _ _ rest hrest
  have hcur1 : 0 + (search 1).results.length = cumResults search 1 := by
    simp [cumResults]
  have hg2 : goodRun search (1 + 1) (cumResults search 1)
      ((search 1).totalResultNumber) rest := by
    rw [← hcur1]
    exact hg
  obtain ⟨hall, hfin⟩ := goodRun_stop search rest 1 _ _ hg2 rfl rfl
  refine ⟨by simp, ?_, ?_, ?_, hprov⟩
  · have h1 : rest = (List.range' 2 rest.length).map (fun i => (search i).results) :=
      goodRun_pages search rest 2 _ _ hg
    simp only [List.length_cons, List.range'_succ, List.map_cons]
    rw [← h1]
  · intro k hk1 hk2
    exact hall k hk1 (by simp at hk2; omega)
  · have hlen : ((search 1).results :: rest).length = 1 + rest.length := by
      simp
      omega
    rw [hlen]
    exact hfin

def searchTwo : Nat → Page := fun i => { totalResultNumber := 2, results := [10 * i] }

/-- Witness for `listing_pages` on a two-page listing. -/
theorem listing_pages_witness :
    getTextIdList searchTwo 5 = some [[10], [20]] ∧
    providerListOutputs searchTwo 5 9 =
      some ([[10], [20]].map (LegiOut.textList 9) ++ [LegiOut.endList 9]) :=
  ⟨rfl, (listing_pages searchTwo 5 9 [[10], [20]] rfl).2.2.2.2⟩

/-! ## C1 — Coordinator loop termination -/

theorem middlemanContinue_eq_false (s : MState) :
    middlemanContinue s = false ↔
      s.commandsSet = [] ∧ s.commandsDict = [] := by
  simp [middlemanContinue, List.isEmpty_iff]

theorem commandsSet_empty_iff (s : MState) :
    s.commandsSet = [] ↔ (¬ accepting s ∧ openJobs s = []) := by
  unfold accepting openJobs
  constructor
  · intro h
    rw [h]
    simp [List.filterMap]
  · rintro ⟨h1, h2⟩
    cases hcs : s.commandsSet with
    | nil => rfl
    | cons c rest =>
      cases c with
      | wait =>
        rw [hcs] at h1
        exact absurd (List.mem_cons_self _ _) h1
      | filt f =>
        rw [hcs] at h2
        simp [List.filterMap_cons] at h2

theorem middleman_run_exit (structsOf : SFilter → List Pattern) :
    ∀ rounds s pend sf outs,
      middlemanRun structsOf s pend rounds = .ok (some (sf, outs)) →
      middlemanContinue sf = false
      ∧ outs.toLegi.getLast? = some .terminate
      ∧ outs.toDb.getLast? = some .terminate
      ∧ outs.toCmd.getLast? = some .done := by
  intro rounds
  induction rounds with
  | nil =>
    intro s pend sf outs h
    unfold middlemanRun at h
    by_cases hc : middlemanContinue s
    · rw [if_pos hc] at h
      simp at h
    · rw [if_neg hc] at h
      simp only [Except.ok.injEq, Option.some.injEq, Prod.mk.injEq] at h
      obtain ⟨hsf, houts⟩ := h
      subst hsf
      subst houts
      exact ⟨Bool.eq_false_iff.mpr hc, rfl, rfl, rfl⟩
  | cons a rest ih =>
    intro s pend sf outs h
    unfold middlemanRun at h
    by_cases hc : middlemanContinue s
    · rw [if_pos hc] at h
      simp only [] at h
      rcases hq2 : (handleLegi structsOf
          (handleOrder s (pend ++ a.cmdMsgs)).1 a.legiMsgs).2 with e | s2
      · rw [hq2] at h
        simp at h
      · rw [hq2] at h
        simp only [] at h
        rcases hq3 : (handleDb s2 a.dbMsgs).2 with e | s3
        · rw [hq3] at h
          simp at h
        · rw [hq3] at h
          simp only [] at h
          rcases hqrec : middlemanRun structsOf s3
              (handleOrder s (pend ++ a.cmdMsgs)).2.2 rest with e | o
          · rw [hqrec] at h
            simp at h
          · rw [hqrec] at h
            rcases o with _ | ⟨sf', outs'⟩
            · simp at h
            · simp only [Except.ok.injEq, Option.some.injEq, Prod.mk.injEq] at h
              obtain ⟨hsf, houts⟩ := h
              subst hsf
              obtain ⟨hcont, hlegi, hdb, hcmd⟩ := ih _ _ _ _ hqrec
              have hlegine : outs'.toLegi ≠ [] := by
                intro hnil
                rw [hnil] at hlegi
                simp at hlegi
              have hdbne : outs'.toDb ≠ [] := by
                intro hnil
                rw [hnil] at hdb
                simp at hdb
              subst houts
              refine ⟨hcont, ?_, ?_, hcmd⟩
              · simp only []
                rw [List.append_assoc,
                    List.getLast?_append_of_ne_nil _
                      (by simp [hlegine] : (handleDb s2 a.dbMsgs).1 ++ outs'.toLegi ≠ []),
                    List.getLast?_append_of_ne_nil _ hlegine]
                exact hlegi
              · simp only []
                rw [List.getLast?_append_of_ne_nil _ hdbne]
                exact hdb
    · rw [if_neg hc] at h
      simp only [Except.ok.injEq, Option.some.injEq, Prod.mk.injEq] at h
      obtain ⟨hsf, houts⟩ := h
      subst hsf
      subst houts
      exact ⟨Bool.eq_false_iff.mpr hc, rfl, rfl, rfl⟩

/-- C1. The Coordinator's event loop terminates exactly when the set of jobs
with an open listing phase is empty, no tracked item remains, and the
accepting flag (the `"wait"` sentinel) is cleared — it keeps looping while
any of these holds — and every terminating run ends by sending the shutdown
signal `Markers.END` as the last message to both the Source Agent and the
Store Agent, and reports completion on the control channel. -/
theorem coordinator_loop_termination :
    (∀ s : MState, middlemanContinue s = false ↔
      (¬ accepting s ∧ openJobs s = [] ∧ s.commandsDict = []))
    ∧ (∀ structsOf rounds s pend sf outs,
        middlemanRun structsOf s pend rounds = .ok (some (sf, outs)) →
        (¬ accepting sf ∧ openJobs sf = [] ∧ sf.commandsDict = [])
        ∧ outs.toLegi.getLast? = some .terminate
        ∧ outs.toDb.getLast? = some .terminate
        ∧ outs.toCmd.getLast? = some .done) := by
  have hiff : ∀ s : MState, middlemanContinue s = false ↔
      (¬ accepting s ∧ openJobs s = [] ∧ s.commandsDict = []) := by
    intro s
    rw [middlemanContinue_eq_false, and_congr_left_iff.mpr
      (fun _ => commandsSet_empty_iff s), and_assoc]
  constructor
  · exact hiff
  · intro structsOf rounds s pend sf outs h
    obtain ⟨hcont, h1, h2, h3⟩ :=
      middleman_run_exit structsOf rounds s pend sf outs h
    exact ⟨(hiff sf).mp hcont, h1, h2, h3⟩

/-- The single round of control traffic used in the witness below. -/
def witnessArrivals : List Arrivals :=
  [{ cmdMsgs := [CmdIn.terminate], legiMsgs := [], dbMsgs := [] }]

def witnessFinal : MState := { commandsSet := [], commandsDict := [] }

def witnessOuts : MOutputs :=
  { toLegi := [LegiIn.terminate], toDb := [DbIn.terminate],
    toCmd := [CmdOut.done] }

/-- Witness for `coordinator_loop_termination`: a run that receives only the
End-of-submissions order drains immediately and shuts both agents down. -/
theorem coordinator_loop_termination_witness :
    middlemanRun (fun _ => []) mInit [] witnessArrivals =
      .ok (some (witnessFinal, witnessOuts))
    ∧ ((¬ accepting witnessFinal ∧ openJobs witnessFinal = []
        ∧ witnessFinal.commandsDict = [])
       ∧ witnessOuts.toLegi.getLast? = some .terminate
       ∧ witnessOuts.toDb.getLast? = some .terminate
       ∧ witnessOuts.toCmd.getLast? = some .done) :=
  ⟨rfl, coordinator_loop_termination.2 (fun _ => []) witnessArrivals
    mInit [] witnessFinal witnessOuts rfl⟩
